import Mathlib

/-!
# libi2c: one-shot I2C transactions over a recording bus

A shallow embedding of `src/libi2c.c`.  The operating-system primitives
`open`, `ioctl(I2C_SLAVE_FORCE)`, `write`, `read` and `close` are supplied by
a `Bus` (a fake bus: each primitive is a function of its arguments), and every
primitive call is appended to a trace.  The three private helpers `init_fd`,
`deinit_fd`, `set_slave` and the three public operations `li2c_write`,
`li2c_read`, `li2c_writeread` are translated statement by statement.

Modelling conventions
* a C pointer is an `Option`: `none` is `NULL`, `some b` points at the bytes `b`;
* bytes, addresses and the `stop` flag (`unsigned char`) and the lengths
  (`unsigned`) are natural numbers;
* `read`/`write` return an `ssize_t`, modelled as an `Int`; the C code stores it
  in an `int`, which is modelled by `toInt32` (reduction modulo 2^32);
* the comparison of an `int` with an `unsigned` converts the `int` to
  `unsigned` (`toUInt32`);
* the raw write is handed the first `wlen` bytes of the write buffer and the raw
  read overwrites the start of the read buffer; memory past the end of a
  buffer is not modelled;
* diagnostics printed on `stderr` are not part of the model.
-/

namespace LibI2C

/-- One call received by the bus. -/
inductive Call where
  | open (devnode : String)
  | setTarget (fd : Int) (addr : Nat)
  | write (fd : Int) (bytes : List Nat) (len : Nat)
  | read (fd : Int) (len : Nat)
  | close (fd : Int)
  deriving DecidableEq, Repr

/-- The recorded calls, oldest first. -/
abbrev Trace := List Call

def Call.isOpen : Call → Bool
  | .open _ => true
  | _ => false

def Call.isSetTarget : Call → Bool
  | .setTarget _ _ => true
  | _ => false

def Call.isWrite : Call → Bool
  | .write _ _ _ => true
  | _ => false

def Call.isRead : Call → Bool
  | .read _ _ => true
  | _ => false

def Call.isClose : Call → Bool
  | .close _ => true
  | _ => false

/-- The operating-system side of the library: what each primitive returns.
`sys_read` also gives the bytes it stores at the start of the buffer. -/
structure Bus where
  sys_open : String → Int
  sys_ioctl : Int → Nat → Int
  sys_write : Int → List Nat → Nat → Int
  sys_read : Int → Nat → Int × List Nat
  sys_close : Int → Int

/-- Conversion of an integer value to the 32-bit `int`. -/
def toInt32 (x : Int) : Int :=
  if x % 4294967296 < 2147483648 then x % 4294967296 else x % 4294967296 - 4294967296

/-- Conversion of an `int` to `unsigned`, as done by `int < unsigned`. -/
def toUInt32 (x : Int) : Int := x % 4294967296

/-- Largest value of the 32-bit `int`. -/
def INT_MAX : Int := 2147483647

/-- Smallest value of the 32-bit `int`. -/
def INT_MIN : Int := -2147483648

/-- Effect of a raw read on the caller's buffer: the delivered bytes replace
the start of the buffer. -/
def storeBytes (r data : List Nat) : List Nat := data ++ r.drop data.length

/-- `init_fd(devnode, &fd)`: returns the status, the value left in `fd` and the
trace.  The out-pointer is `&fd` at each of the three call sites, never null. -/
def init_fd (bus : Bus) (devnode : Option String) (fd : Int) (t : Trace) :
    Int × Int × Trace :=
  match devnode with
  | none => (-1, fd, t)
  | some d =>
    let fd1 := bus.sys_open d
    if fd1 < 0 then (-1, fd1, t ++ [Call.open d]) else (0, fd1, t ++ [Call.open d])

/-- `deinit_fd(fd)`. -/
def deinit_fd (bus : Bus) (fd : Int) (t : Trace) : Int × Trace :=
  if fd < -1 then (-1, t)
  else if bus.sys_close fd < 0 then (-1, t ++ [Call.close fd])
  else (0, t ++ [Call.close fd])

/-- `set_slave(fd, addr)`. -/
def set_slave (bus : Bus) (fd : Int) (addr : Nat) (t : Trace) : Int × Trace :=
  if fd < 0 then (-1, t)
  else if bus.sys_ioctl fd addr < 0 then (-1, t ++ [Call.setTarget fd addr])
  else (0, t ++ [Call.setTarget fd addr])

/-- What a public operation leaves behind: the returned `int`, the calls the
bus received and the caller's read buffer (`none` when the operation has no
read buffer or it was passed as `NULL`). -/
structure Result where
  ret : Int
  trace : Trace
  rbuf : Option (List Nat)
  deriving DecidableEq, Repr

/-- `li2c_write(devnode, addr, w, wlen)`. -/
def li2c_write (bus : Bus) (devnode : Option String) (addr : Nat)
    (w : Option (List Nat)) (wlen : Nat) : Result :=
  if devnode.isNone || w.isNone || wlen == 0 then ⟨-1, [], none⟩
  else
    let i := init_fd bus devnode (-1) []
    if i.1 < 0 then ⟨-1, i.2.2, none⟩
    else
      let fd := i.2.1
      let s := set_slave bus fd addr i.2.2
      if s.1 < 0 then ⟨-1, (deinit_fd bus fd s.2).2, none⟩
      else
        let bwrote := toInt32 (bus.sys_write fd ((w.getD []).take wlen) wlen)
        let t := s.2 ++ [Call.write fd ((w.getD []).take wlen) wlen]
        let d := deinit_fd bus fd t
        if bwrote ≤ 0 then ⟨-1, d.2, none⟩ else ⟨bwrote, d.2, none⟩

/-- `li2c_read(devnode, addr, r, rlen)`. -/
def li2c_read (bus : Bus) (devnode : Option String) (addr : Nat)
    (r : Option (List Nat)) (rlen : Nat) : Result :=
  if devnode.isNone || r.isNone || rlen == 0 then ⟨-1, [], r⟩
  else
    let i := init_fd bus devnode (-1) []
    if i.1 < 0 then ⟨-1, i.2.2, r⟩
    else
      let fd := i.2.1
      let s := set_slave bus fd addr i.2.2
      if s.1 < 0 then ⟨-1, (deinit_fd bus fd s.2).2, r⟩
      else
        let rd := bus.sys_read fd rlen
        let bread := toInt32 rd.1
        let r1 := r.map (fun b => storeBytes b rd.2)
        let t := s.2 ++ [Call.read fd rlen]
        let d := deinit_fd bus fd t
        if bread ≤ 0 then ⟨-1, d.2, r1⟩ else ⟨bread, d.2, r1⟩

/-- `li2c_writeread(devnode, addr, w, wlen, r, rlen, stop)`.  The two returns
of the write phase leave the function without calling `deinit_fd`, as in the
source. -/
def li2c_writeread (bus : Bus) (devnode : Option String) (addr : Nat)
    (w : Option (List Nat)) (wlen : Nat) (r : Option (List Nat)) (rlen : Nat)
    (stop : Nat) : Result :=
  if devnode.isNone || w.isNone || wlen == 0 || r.isNone || rlen == 0 then ⟨-1, [], r⟩
  else if stop == 0 then ⟨-1, [], r⟩
  else
    let i := init_fd bus devnode (-1) []
    if i.1 < 0 then ⟨-1, i.2.2, r⟩
    else
      let fd := i.2.1
      let s := set_slave bus fd addr i.2.2
      if s.1 < 0 then ⟨-1, (deinit_fd bus fd s.2).2, r⟩
      else
        let bwrote := toInt32 (bus.sys_write fd ((w.getD []).take wlen) wlen)
        let t := s.2 ++ [Call.write fd ((w.getD []).take wlen) wlen]
        if bwrote ≤ 0 then ⟨-1, t, r⟩
        else if toUInt32 bwrote < wlen then ⟨-1, t, r⟩
        else
          let rd := bus.sys_read fd rlen
          let bread := toInt32 rd.1
          let r1 := r.map (fun b => storeBytes b rd.2)
          let t1 := t ++ [Call.read fd rlen]
          let d := deinit_fd bus fd t1
          if bread ≤ 0 then ⟨-1, d.2, r1⟩
          else if toUInt32 bread < rlen then ⟨-1, d.2, r1⟩
          else ⟨bread, d.2, r1⟩

/-- Number of `close` calls in a trace. -/
def closes (t : Trace) : Nat := t.countP Call.isClose

/-- Number of `open` calls in a trace. -/
def opens (t : Trace) : Nat := t.countP Call.isOpen

/-- Number of raw `read` calls in a trace. -/
def reads (t : Trace) : Nat := t.countP Call.isRead

/-- A bus on which every primitive succeeds: `open` returns descriptor 3, the
transfers move every requested byte, the read delivers `data`. -/
def okBus (data : List Nat) : Bus where
  sys_open := fun _ => 3
  sys_ioctl := fun _ _ => 0
  sys_write := fun _ _ len => len
  sys_read := fun _ len => (len, data)
  sys_close := fun _ => 0

/-- A bus like `okBus` whose raw write returns `n` and whose close returns `c`. -/
def writeBus (n c : Int) : Bus where
  sys_open := fun _ => 3
  sys_ioctl := fun _ _ => 0
  sys_write := fun _ _ _ => n
  sys_read := fun _ len => (len, [])
  sys_close := fun _ => c

/-- The bus `bus` with its close primitive replaced by `c`. -/
def withClose (bus : Bus) (c : Int → Int) : Bus :=
  { bus with sys_close := c }

/-- The addressing calls of a trace, in order. -/
def setTargets (t : Trace) : List Call := t.filter Call.isSetTarget

/-- Number of raw transfers (`write` or `read` calls) in a trace. -/
def transfers (t : Trace) : Nat := t.countP (fun c => c.isWrite || c.isRead)

/-! ## Conversions -/

theorem toInt32_of_range (x : Int) (h1 : -2147483648 ≤ x) (h2 : x ≤ 2147483647) :
    toInt32 x = x := by
  unfold toInt32
  split_ifs <;> omega

theorem toInt32_bounds (x : Int) : -2147483648 ≤ toInt32 x ∧ toInt32 x ≤ 2147483647 := by
  unfold toInt32
  split_ifs <;> omega

theorem toUInt32_of_pos (x : Int) (h1 : 0 ≤ x) (h2 : x ≤ 2147483647) : toUInt32 x = x := by
  unfold toUInt32
  omega

/-! ## Argument validation -/

/-- C2: `li2c_writeread` called with `stop = 0` returns -1 and the bus records
no call at all (no open, hence no addressing, write, read or close), whatever
the other arguments are, null pointers and zero lengths included. -/
theorem li2c_writeread_stop_zero (bus : Bus) (devnode : Option String) (addr : Nat)
    (w : Option (List Nat)) (wlen : Nat) (r : Option (List Nat)) (rlen : Nat) :
    (li2c_writeread bus devnode addr w wlen r rlen 0).ret = -1 ∧
    (li2c_writeread bus devnode addr w wlen r rlen 0).trace = [] ∧
    opens (li2c_writeread bus devnode addr w wlen r rlen 0).trace = 0 := by
  unfold li2c_writeread
  split_ifs <;> simp_all [opens]

/-- C3: a null required pointer or a zero length makes each operation return -1
with an empty trace, so without any open call (for `li2c_writeread` whatever
the value of `stop`). -/
theorem invalid_arguments_rejected (bus : Bus) (devnode : Option String) (addr : Nat)
    (w : Option (List Nat)) (wlen : Nat) (r : Option (List Nat)) (rlen : Nat) (stop : Nat) :
    ((devnode = none ∨ w = none ∨ wlen = 0) →
      (li2c_write bus devnode addr w wlen).ret = -1 ∧
      (li2c_write bus devnode addr w wlen).trace = [] ∧
      opens (li2c_write bus devnode addr w wlen).trace = 0) ∧
    ((devnode = none ∨ r = none ∨ rlen = 0) →
      (li2c_read bus devnode addr r rlen).ret = -1 ∧
      (li2c_read bus devnode addr r rlen).trace = [] ∧
      opens (li2c_read bus devnode addr r rlen).trace = 0) ∧
    ((devnode = none ∨ w = none ∨ r = none ∨ wlen = 0 ∨ rlen = 0) →
      (li2c_writeread bus devnode addr w wlen r rlen stop).ret = -1 ∧
      (li2c_writeread bus devnode addr w wlen r rlen stop).trace = [] ∧
      opens (li2c_writeread bus devnode addr w wlen r rlen stop).trace = 0) := by
  refine ⟨fun h => ?_, fun h => ?_, fun h => ?_⟩
  · have hc : (devnode.isNone || w.isNone || wlen == 0) = true := by
      rcases h with h | h | h <;> simp [h]
    simp [li2c_write, hc, opens]
  · have hc : (devnode.isNone || r.isNone || rlen == 0) = true := by
      rcases h with h | h | h <;> simp [h]
    simp [li2c_read, hc, opens]
  · have hc : (devnode.isNone || w.isNone || wlen == 0 || r.isNone || rlen == 0) = true := by
      rcases h with h | h | h | h | h <;> simp [h]
    simp [li2c_writeread, hc, opens]

/-- Witness of C3: `li2c_write(bus, 0x50, w, 0)`, `li2c_read` with a null
buffer and `li2c_writeread` with a null device node. -/
theorem invalid_arguments_rejected_witness :
    ((li2c_write (okBus []) (some "/dev/i2c-0") 80 (some [0, 16]) 0).ret = -1 ∧
      (li2c_write (okBus []) (some "/dev/i2c-0") 80 (some [0, 16]) 0).trace = [] ∧
      opens (li2c_write (okBus []) (some "/dev/i2c-0") 80 (some [0, 16]) 0).trace = 0) ∧
    ((li2c_read (okBus []) (some "/dev/i2c-0") 80 none 4).ret = -1 ∧
      (li2c_read (okBus []) (some "/dev/i2c-0") 80 none 4).trace = [] ∧
      opens (li2c_read (okBus []) (some "/dev/i2c-0") 80 none 4).trace = 0) ∧
    ((li2c_writeread (okBus []) none 80 (some [0]) 1 (some [0]) 1 1).ret = -1 ∧
      (li2c_writeread (okBus []) none 80 (some [0]) 1 (some [0]) 1 1).trace = [] ∧
      opens (li2c_writeread (okBus []) none 80 (some [0]) 1 (some [0]) 1 1).trace = 0) :=
  ⟨(invalid_arguments_rejected (okBus []) (some "/dev/i2c-0") 80 (some [0, 16]) 0 none 4 1).1
      (Or.inr (Or.inr rfl)),
   (invalid_arguments_rejected (okBus []) (some "/dev/i2c-0") 80 (some [0, 16]) 0 none 4 1).2.1
      (Or.inr (Or.inl rfl)),
   (invalid_arguments_rejected (okBus []) none 80 (some [0]) 1 (some [0]) 1 1).2.2
      (Or.inl rfl)⟩

/-! ## The `stop` flag -/

/-- C7, as stated, fails: with `stop = 2` and `stop = 255` and otherwise valid
arguments the bus device node is opened and the transfer is carried out. -/
theorem li2c_writeread_stop_two_opens :
    (li2c_writeread (okBus [7]) (some "/dev/i2c-0") 104 (some [0]) 1 (some [9]) 1 2).ret = 1 ∧
    opens (li2c_writeread (okBus [7]) (some "/dev/i2c-0") 104 (some [0]) 1 (some [9]) 1 2).trace
      = 1 ∧
    (li2c_writeread (okBus [7]) (some "/dev/i2c-0") 104 (some [0]) 1 (some [9]) 1 255).ret = 1 ∧
    opens (li2c_writeread (okBus [7]) (some "/dev/i2c-0") 104 (some [0]) 1 (some [9]) 1 255).trace
      = 1 := by
  decide

/-- C7 amended: every `stop` value other than 0 is handled exactly as
`stop = 1` (same return value, same trace, same read buffer); only `stop = 0`
is rejected before the open. -/
theorem li2c_writeread_stop_nonzero (bus : Bus) (devnode : Option String) (addr : Nat)
    (w : Option (List Nat)) (wlen : Nat) (r : Option (List Nat)) (rlen : Nat) (stop : Nat)
    (hstop : stop ≠ 0) :
    li2c_writeread bus devnode addr w wlen r rlen stop =
      li2c_writeread bus devnode addr w wlen r rlen 1 := by
  simp [li2c_writeread, hstop]

/-- Witness of C7 amended at `stop = 255`. -/
theorem li2c_writeread_stop_nonzero_witness :
    (255 : Nat) ≠ 0 ∧
    li2c_writeread (okBus [7]) (some "/dev/i2c-0") 104 (some [0]) 1 (some [9]) 1 255 =
      li2c_writeread (okBus [7]) (some "/dev/i2c-0") 104 (some [0]) 1 (some [9]) 1 1 :=
  ⟨by decide, li2c_writeread_stop_nonzero (okBus [7]) (some "/dev/i2c-0") 104 (some [0]) 1
    (some [9]) 1 255 (by decide)⟩

/-! ## Handle release -/

/-- C1 at the failing input: `li2c_writeread` with `stop = 1`, `wlen = 3` and a
raw write returning 0 returns -1 and does not invoke the raw read, but the
trace ends with the write: the opened handle 3 is never closed. -/
theorem li2c_writeread_write_failure_trace :
    li2c_writeread (writeBus 0 0) (some "/dev/i2c-0") 80 (some [1, 2, 3]) 3 (some [0]) 1 1 =
      ⟨-1, [Call.open "/dev/i2c-0", Call.setTarget 3 80, Call.write 3 [1, 2, 3] 3], some [0]⟩ ∧
    closes (li2c_writeread (writeBus 0 0) (some "/dev/i2c-0") 80 (some [1, 2, 3]) 3
      (some [0]) 1 1).trace = 0 ∧
    reads (li2c_writeread (writeBus 0 0) (some "/dev/i2c-0") 80 (some [1, 2, 3]) 3
      (some [0]) 1 1).trace = 0 := by
  decide

/-! ## The private helpers -/

theorem init_fd_some (bus : Bus) (d : String) (fd : Int) (t : Trace) :
    init_fd bus (some d) fd t =
      (if bus.sys_open d < 0 then -1 else 0, bus.sys_open d, t ++ [Call.open d]) := by
  unfold init_fd
  by_cases h : bus.sys_open d < 0 <;> simp [h]

theorem set_slave_of_nonneg (bus : Bus) (fd : Int) (addr : Nat) (t : Trace) (hfd : 0 ≤ fd) :
    set_slave bus fd addr t =
      (if bus.sys_ioctl fd addr < 0 then -1 else 0, t ++ [Call.setTarget fd addr]) := by
  unfold set_slave
  have h1 : ¬ fd < 0 := not_lt.mpr hfd
  by_cases h : bus.sys_ioctl fd addr < 0 <;> simp [h, h1]

theorem deinit_fd_trace (bus : Bus) (fd : Int) (t : Trace) (hfd : 0 ≤ fd) :
    (deinit_fd bus fd t).2 = t ++ [Call.close fd] := by
  unfold deinit_fd
  have h1 : ¬ fd < -1 := by omega
  by_cases h : bus.sys_close fd < 0 <;> simp [h, h1]

/-! ## The paths of `li2c_write` -/

theorem li2c_write_open_failed (bus : Bus) (d : String) (addr : Nat) (wb : List Nat)
    (wlen : Nat) (hw : wlen ≠ 0) (hopen : bus.sys_open d < 0) :
    li2c_write bus (some d) addr (some wb) wlen = ⟨-1, [Call.open d], none⟩ := by
  have hw1 : (wlen == 0) = false := by simp [hw]
  simp only [li2c_write, init_fd_some]
  simp [hw1, hopen]

theorem li2c_write_unaddressed (bus : Bus) (d : String) (addr : Nat) (wb : List Nat)
    (wlen : Nat) (fd : Int) (hw : wlen ≠ 0) (hopen : bus.sys_open d = fd) (hfd : 0 ≤ fd)
    (hioctl : bus.sys_ioctl fd addr < 0) :
    li2c_write bus (some d) addr (some wb) wlen =
      ⟨-1, [Call.open d, Call.setTarget fd addr, Call.close fd], none⟩ := by
  have hw1 : (wlen == 0) = false := by simp [hw]
  have h1 : ¬ fd < 0 := not_lt.mpr hfd
  simp only [li2c_write, init_fd_some, hopen, set_slave_of_nonneg bus fd addr _ hfd,
    deinit_fd_trace bus fd _ hfd]
  simp [hw1, h1, hioctl]

theorem li2c_write_addressed (bus : Bus) (d : String) (addr : Nat) (wb : List Nat)
    (wlen : Nat) (fd : Int) (hw : wlen ≠ 0) (hopen : bus.sys_open d = fd) (hfd : 0 ≤ fd)
    (hioctl : 0 ≤ bus.sys_ioctl fd addr) :
    li2c_write bus (some d) addr (some wb) wlen =
      ⟨if toInt32 (bus.sys_write fd (wb.take wlen) wlen) ≤ 0 then -1
        else toInt32 (bus.sys_write fd (wb.take wlen) wlen),
       [Call.open d, Call.setTarget fd addr, Call.write fd (wb.take wlen) wlen, Call.close fd],
       none⟩ := by
  have hw1 : (wlen == 0) = false := by simp [hw]
  have h1 : ¬ fd < 0 := not_lt.mpr hfd
  have h3 : ¬ bus.sys_ioctl fd addr < 0 := not_lt.mpr hioctl
  simp only [li2c_write, init_fd_some, hopen, set_slave_of_nonneg bus fd addr _ hfd,
    deinit_fd_trace bus fd _ hfd]
  by_cases hb : toInt32 (bus.sys_write fd (wb.take wlen) wlen) ≤ 0 <;> simp [hw1, h1, h3, hb]

/-! ## The paths of `li2c_read` -/

theorem li2c_read_open_failed (bus : Bus) (d : String) (addr : Nat) (rb : List Nat)
    (rlen : Nat) (hr : rlen ≠ 0) (hopen : bus.sys_open d < 0) :
    li2c_read bus (some d) addr (some rb) rlen = ⟨-1, [Call.open d], some rb⟩ := by
  have hr1 : (rlen == 0) = false := by simp [hr]
  simp only [li2c_read, init_fd_some]
  simp [hr1, hopen]

theorem li2c_read_unaddressed (bus : Bus) (d : String) (addr : Nat) (rb : List Nat)
    (rlen : Nat) (fd : Int) (hr : rlen ≠ 0) (hopen : bus.sys_open d = fd) (hfd : 0 ≤ fd)
    (hioctl : bus.sys_ioctl fd addr < 0) :
    li2c_read bus (some d) addr (some rb) rlen =
      ⟨-1, [Call.open d, Call.setTarget fd addr, Call.close fd], some rb⟩ := by
  have hr1 : (rlen == 0) = false := by simp [hr]
  have h1 : ¬ fd < 0 := not_lt.mpr hfd
  simp only [li2c_read, init_fd_some, hopen, set_slave_of_nonneg bus fd addr _ hfd,
    deinit_fd_trace bus fd _ hfd]
  simp [hr1, h1, hioctl]

theorem li2c_read_addressed (bus : Bus) (d : String) (addr : Nat) (rb : List Nat)
    (rlen : Nat) (fd : Int) (hr : rlen ≠ 0) (hopen : bus.sys_open d = fd) (hfd : 0 ≤ fd)
    (hioctl : 0 ≤ bus.sys_ioctl fd addr) :
    li2c_read bus (some d) addr (some rb) rlen =
      ⟨if toInt32 (bus.sys_read fd rlen).1 ≤ 0 then -1 else toInt32 (bus.sys_read fd rlen).1,
       [Call.open d, Call.setTarget fd addr, Call.read fd rlen, Call.close fd],
       some (storeBytes rb (bus.sys_read fd rlen).2)⟩ := by
  have hr1 : (rlen == 0) = false := by simp [hr]
  have h1 : ¬ fd < 0 := not_lt.mpr hfd
  have h3 : ¬ bus.sys_ioctl fd addr < 0 := not_lt.mpr hioctl
  simp only [li2c_read, init_fd_some, hopen, set_slave_of_nonneg bus fd addr _ hfd,
    deinit_fd_trace bus fd _ hfd]
  by_cases hb : toInt32 (bus.sys_read fd rlen).1 ≤ 0 <;> simp [hr1, h1, h3, hb]

/-! ## The paths of `li2c_writeread` -/

theorem li2c_writeread_open_failed (bus : Bus) (d : String) (addr : Nat) (wb : List Nat)
    (wlen : Nat) (rb : List Nat) (rlen : Nat) (stop : Nat)
    (hw : wlen ≠ 0) (hr : rlen ≠ 0) (hs : stop ≠ 0) (hopen : bus.sys_open d < 0) :
    li2c_writeread bus (some d) addr (some wb) wlen (some rb) rlen stop =
      ⟨-1, [Call.open d], some rb⟩ := by
  have hw1 : (wlen == 0) = false := by simp [hw]
  have hr1 : (rlen == 0) = false := by simp [hr]
  have hs1 : (stop == 0) = false := by simp [hs]
  simp only [li2c_writeread, init_fd_some]
  simp [hw1, hr1, hs1, hopen]

theorem li2c_writeread_unaddressed (bus : Bus) (d : String) (addr : Nat) (wb : List Nat)
    (wlen : Nat) (rb : List Nat) (rlen : Nat) (stop : Nat) (fd : Int)
    (hw : wlen ≠ 0) (hr : rlen ≠ 0) (hs : stop ≠ 0)
    (hopen : bus.sys_open d = fd) (hfd : 0 ≤ fd) (hioctl : bus.sys_ioctl fd addr < 0) :
    li2c_writeread bus (some d) addr (some wb) wlen (some rb) rlen stop =
      ⟨-1, [Call.open d, Call.setTarget fd addr, Call.close fd], some rb⟩ := by
  have hw1 : (wlen == 0) = false := by simp [hw]
  have hr1 : (rlen == 0) = false := by simp [hr]
  have hs1 : (stop == 0) = false := by simp [hs]
  have h1 : ¬ fd < 0 := not_lt.mpr hfd
  simp only [li2c_writeread, init_fd_some, hopen, set_slave_of_nonneg bus fd addr _ hfd,
    deinit_fd_trace bus fd _ hfd]
  simp [hw1, hr1, hs1, h1, hioctl]

/-- Trace and return value of `li2c_writeread` once the arguments are accepted,
the open returned the descriptor `fd` and the addressing succeeded. -/
theorem li2c_writeread_addressed (bus : Bus) (d : String) (addr : Nat)
    (wb : List Nat) (wlen : Nat) (rb : List Nat) (rlen : Nat) (stop : Nat) (fd : Int)
    (hw : wlen ≠ 0) (hr : rlen ≠ 0) (hs : stop ≠ 0)
    (hopen : bus.sys_open d = fd) (hfd : 0 ≤ fd) (hioctl : 0 ≤ bus.sys_ioctl fd addr) :
    li2c_writeread bus (some d) addr (some wb) wlen (some rb) rlen stop =
      if toInt32 (bus.sys_write fd (wb.take wlen) wlen) ≤ 0 ∨
          toUInt32 (toInt32 (bus.sys_write fd (wb.take wlen) wlen)) < wlen then
        ⟨-1, [Call.open d, Call.setTarget fd addr, Call.write fd (wb.take wlen) wlen], some rb⟩
      else if toInt32 (bus.sys_read fd rlen).1 ≤ 0 ∨
          toUInt32 (toInt32 (bus.sys_read fd rlen).1) < rlen then
        ⟨-1, [Call.open d, Call.setTarget fd addr, Call.write fd (wb.take wlen) wlen,
          Call.read fd rlen, Call.close fd], some (storeBytes rb (bus.sys_read fd rlen).2)⟩
      else
        ⟨toInt32 (bus.sys_read fd rlen).1,
          [Call.open d, Call.setTarget fd addr, Call.write fd (wb.take wlen) wlen,
          Call.read fd rlen, Call.close fd], some (storeBytes rb (bus.sys_read fd rlen).2)⟩ := by
  have h1 : ¬ fd < 0 := not_lt.mpr hfd
  have h3 : ¬ bus.sys_ioctl fd addr < 0 := not_lt.mpr hioctl
  have hw1 : (wlen == 0) = false := by simp [hw]
  have hr1 : (rlen == 0) = false := by simp [hr]
  have hs1 : (stop == 0) = false := by simp [hs]
  simp only [li2c_writeread, init_fd_some, hopen, set_slave_of_nonneg bus fd addr _ hfd,
    deinit_fd_trace bus fd _ hfd]
  simp only [h1, h3, hw1, hs1, hr1, Option.isNone_some, Bool.false_or, beq_iff_eq,
    if_false, Bool.false_eq_true, lt_self_iff_false, List.nil_append, List.cons_append,
    Option.getD_some, Option.map_some', Bool.or_self, Bool.or_false, decide_False]
  by_cases hb : toInt32 (bus.sys_write fd (wb.take wlen) wlen) ≤ 0
  · simp only [hb, if_true, true_or]
  by_cases hc : toUInt32 (toInt32 (bus.sys_write fd (wb.take wlen) wlen)) < wlen
  · simp only [hb, hc, if_true, if_false, or_true]
  simp only [hb, hc, if_false, or_self]
  by_cases hd : toInt32 (bus.sys_read fd rlen).1 ≤ 0
  · simp only [hd, if_true, true_or]
  by_cases he : toUInt32 (toInt32 (bus.sys_read fd rlen).1) < rlen
  · simp only [hd, he, if_true, if_false, or_true]
  simp only [hd, he, if_false, or_self]

/-- The return value of `li2c_writeread` is -1 unless both stored counts are
positive and not below the requested lengths; it is then the stored read count. -/
theorem li2c_writeread_ret_cases (bus : Bus) (devnode : Option String) (addr : Nat)
    (w : Option (List Nat)) (wlen : Nat) (r : Option (List Nat)) (rlen : Nat) (stop : Nat) :
    (li2c_writeread bus devnode addr w wlen r rlen stop).ret = -1 ∨
    ∃ n m : Int, 0 < toInt32 n ∧ ¬ toUInt32 (toInt32 n) < wlen ∧
      0 < toInt32 m ∧ ¬ toUInt32 (toInt32 m) < rlen ∧
      (li2c_writeread bus devnode addr w wlen r rlen stop).ret = toInt32 m := by
  generalize hres : li2c_writeread bus devnode addr w wlen r rlen stop = res
  unfold li2c_writeread at hres
  dsimp only at hres
  split at hres
  · left; rw [← hres]
  split at hres
  · left; rw [← hres]
  split at hres
  · left; rw [← hres]
  split at hres
  · left; rw [← hres]
  split at hres
  · left; rw [← hres]
  split at hres
  · left; rw [← hres]
  split at hres
  · left; rw [← hres]
  split at hres
  · left; rw [← hres]
  rename_i h5 h6 h7 h8
  right
  exact ⟨_, _, not_le.mp h5, h6, not_le.mp h7, h8, by rw [← hres]⟩

/-! ## Lengths above `INT_MAX` -/

/-- C10: with `stop = 1`, when `wlen` or `rlen` exceeds `INT_MAX = 2^31 - 1` the
call returns -1 on every bus, so for every count the raw primitives return,
the full count included. -/
theorem li2c_writeread_above_int_max (bus : Bus) (devnode : Option String) (addr : Nat)
    (w : Option (List Nat)) (wlen : Nat) (r : Option (List Nat)) (rlen : Nat)
    (hbig : INT_MAX < wlen ∨ INT_MAX < rlen) :
    (li2c_writeread bus devnode addr w wlen r rlen 1).ret = -1 := by
  rcases li2c_writeread_ret_cases bus devnode addr w wlen r rlen 1 with h | ⟨n, m, h1, h2, h3, h4, -⟩
  · exact h
  · exfalso
    have bn := toInt32_bounds n
    have bm := toInt32_bounds m
    rw [toUInt32_of_pos _ (le_of_lt h1) bn.2] at h2
    rw [toUInt32_of_pos _ (le_of_lt h3) bm.2] at h4
    unfold INT_MAX at hbig
    omega

/-- Witness of C10: one byte written, 2^32 - 1 bytes requested and delivered. -/
theorem li2c_writeread_above_int_max_witness :
    (INT_MAX < (1 : Nat) ∨ INT_MAX < (4294967295 : Nat)) ∧
    (li2c_writeread (okBus []) (some "/dev/i2c-1") 104 (some [0]) 1
      (some (List.replicate 4294967295 0)) 4294967295 1).ret = -1 :=
  ⟨Or.inr (by decide), li2c_writeread_above_int_max (okBus []) (some "/dev/i2c-1") 104
    (some [0]) 1 (some (List.replicate 4294967295 0)) 4294967295 (Or.inr (by decide))⟩

/-! ## Counts reported by `li2c_write` -/

/-- C4, as stated, fails: with `wlen = 2^31` the raw write returns exactly
`wlen` and the raw read exactly `rlen = 1`, and the call returns -1. -/
theorem li2c_writeread_exact_transfer_rejected :
    (okBus [7]).sys_write 3 ((List.replicate 2147483648 0).take 2147483648) 2147483648
      = 2147483648 ∧
    ((okBus [7]).sys_read 3 1).1 = 1 ∧
    (li2c_writeread (okBus [7]) (some "/dev/i2c-0") 104 (some (List.replicate 2147483648 0))
      2147483648 (some [9]) 1 1).ret = -1 := by
  refine ⟨rfl, rfl, ?_⟩
  rw [li2c_writeread_addressed (okBus [7]) "/dev/i2c-0" 104 _ 2147483648 [9] 1 1 3
    (by decide) (by decide) (by decide) rfl (by decide) (by decide)]
  decide

/-- C4 amended: for a valid `li2c_writeread` call with `stop = 1` in which open
and addressing succeed and the raw write and read return `n` and `m` with
`INT_MIN ≤ n ≤ wlen` and `INT_MIN ≤ m ≤ rlen`: the call returns a non-negative
value if and only if `n = wlen`, `m = rlen` and both lengths are at most
`INT_MAX`; that value is then `rlen`; in every other case it returns -1.  The
raw read is invoked only when `n = wlen`, and the trace is then open,
setTarget, write, read, close, so the write precedes the read. -/
theorem li2c_writeread_result (bus : Bus) (d : String) (addr : Nat) (wb : List Nat)
    (wlen : Nat) (rb : List Nat) (rlen : Nat) (fd n m : Int)
    (hw : 1 ≤ wlen) (hr : 1 ≤ rlen)
    (hopen : bus.sys_open d = fd) (hfd : 0 ≤ fd) (hioctl : 0 ≤ bus.sys_ioctl fd addr)
    (hn : bus.sys_write fd (wb.take wlen) wlen = n) (hm : (bus.sys_read fd rlen).1 = m)
    (hnlo : INT_MIN ≤ n) (hnle : n ≤ wlen) (hmlo : INT_MIN ≤ m) (hmle : m ≤ rlen) :
    (0 ≤ (li2c_writeread bus (some d) addr (some wb) wlen (some rb) rlen 1).ret ↔
      (n = wlen ∧ m = rlen ∧ (wlen : Int) ≤ INT_MAX ∧ (rlen : Int) ≤ INT_MAX)) ∧
    (0 ≤ (li2c_writeread bus (some d) addr (some wb) wlen (some rb) rlen 1).ret →
      (li2c_writeread bus (some d) addr (some wb) wlen (some rb) rlen 1).ret = rlen) ∧
    (¬ 0 ≤ (li2c_writeread bus (some d) addr (some wb) wlen (some rb) rlen 1).ret →
      (li2c_writeread bus (some d) addr (some wb) wlen (some rb) rlen 1).ret = -1) ∧
    (reads (li2c_writeread bus (some d) addr (some wb) wlen (some rb) rlen 1).trace ≠ 0 →
      n = wlen ∧
      (li2c_writeread bus (some d) addr (some wb) wlen (some rb) rlen 1).trace =
        [Call.open d, Call.setTarget fd addr, Call.write fd (wb.take wlen) wlen,
          Call.read fd rlen, Call.close fd]) := by
  rw [li2c_writeread_addressed bus d addr wb wlen rb rlen 1 fd (by omega) (by omega)
    (by decide) hopen hfd hioctl, hn, hm]
  unfold INT_MIN at hnlo hmlo
  unfold INT_MAX
  have hwr : (toInt32 n ≤ 0 ∨ toUInt32 (toInt32 n) < wlen) ↔
      ¬ (n = wlen ∧ (wlen : Int) ≤ 2147483647) := by
    unfold toUInt32 toInt32
    split_ifs <;> omega
  have hrd : (toInt32 m ≤ 0 ∨ toUInt32 (toInt32 m) < rlen) ↔
      ¬ (m = rlen ∧ (rlen : Int) ≤ 2147483647) := by
    unfold toUInt32 toInt32
    split_ifs <;> omega
  by_cases c1 : toInt32 n ≤ 0 ∨ toUInt32 (toInt32 n) < wlen
  · have h1 : ¬ (n = wlen ∧ (wlen : Int) ≤ 2147483647) := hwr.mp c1
    rw [if_pos c1]
    dsimp only
    refine ⟨⟨fun h => ?_, fun h => ?_⟩, fun h => ?_, fun _ => rfl, fun h => ?_⟩
    · omega
    · exact absurd ⟨h.1, h.2.2.1⟩ h1
    · omega
    · exact absurd (by simp [reads, Call.isRead]) h
  · have h1 : n = wlen ∧ (wlen : Int) ≤ 2147483647 := by
      by_contra hc
      exact c1 (hwr.mpr hc)
    rw [if_neg c1]
    by_cases c2 : toInt32 m ≤ 0 ∨ toUInt32 (toInt32 m) < rlen
    · have h2 : ¬ (m = rlen ∧ (rlen : Int) ≤ 2147483647) := hrd.mp c2
      rw [if_pos c2]
      dsimp only
      refine ⟨⟨fun h => ?_, fun h => ?_⟩, fun h => ?_, fun _ => rfl, fun _ => ⟨h1.1, rfl⟩⟩
      · omega
      · exact absurd ⟨h.2.1, h.2.2.2⟩ h2
      · omega
    · have h2 : m = rlen ∧ (rlen : Int) ≤ 2147483647 := by
        by_contra hc
        exact c2 (hrd.mpr hc)
      have hm2 : toInt32 m = m := toInt32_of_range m hmlo (by omega)
      rw [if_neg c2]
      dsimp only
      rw [hm2]
      refine ⟨⟨fun _ => ⟨h1.1, h2.1, h1.2, h2.2⟩, fun _ => ?_⟩, fun _ => h2.1, fun h => ?_,
        fun _ => ⟨h1.1, rfl⟩⟩
      · omega
      · omega

/-- Witness of C4 amended: the scenario `wlen = 1`, `rlen = 6` with full
transfers returns 6. -/
theorem li2c_writeread_result_witness :
    (li2c_writeread (okBus [1, 2, 3, 4, 5, 6]) (some "/dev/i2c-0") 104 (some [0]) 1
      (some [0, 0, 0, 0, 0, 0]) 6 1).ret = 6 :=
  (li2c_writeread_result (okBus [1, 2, 3, 4, 5, 6]) "/dev/i2c-0" 104 [0] 1 [0, 0, 0, 0, 0, 0] 6
    3 1 6 (by decide) (by decide) rfl (by decide) (by decide) rfl rfl (by decide) (by decide)
    (by decide) (by decide)).2.1
    ((li2c_writeread_result (okBus [1, 2, 3, 4, 5, 6]) "/dev/i2c-0" 104 [0] 1
      [0, 0, 0, 0, 0, 0] 6 3 1 6 (by decide) (by decide) rfl (by decide) (by decide) rfl rfl
      (by decide) (by decide) (by decide) (by decide)).1.2 (by decide))

/-! ## Independence from the outcome of `close` -/

theorem li2c_write_withClose_ret (bus : Bus) (c : Int → Int) (devnode : Option String)
    (addr : Nat) (w : Option (List Nat)) (wlen : Nat) :
    (li2c_write (withClose bus c) devnode addr w wlen).ret =
      (li2c_write bus devnode addr w wlen).ret := by
  cases devnode with
  | none => simp [li2c_write]
  | some d =>
    cases w with
    | none => simp [li2c_write]
    | some wb =>
      by_cases hw : wlen = 0
      · simp [li2c_write, hw]
      by_cases ho : bus.sys_open d < 0
      · rw [li2c_write_open_failed bus d addr wb wlen hw ho,
          li2c_write_open_failed (withClose bus c) d addr wb wlen hw ho]
      have hfd : 0 ≤ bus.sys_open d := not_lt.mp ho
      by_cases hi : bus.sys_ioctl (bus.sys_open d) addr < 0
      · rw [li2c_write_unaddressed bus d addr wb wlen _ hw rfl hfd hi,
          li2c_write_unaddressed (withClose bus c) d addr wb wlen _ hw rfl hfd hi]
      have hi1 : 0 ≤ bus.sys_ioctl (bus.sys_open d) addr := not_lt.mp hi
      rw [li2c_write_addressed bus d addr wb wlen _ hw rfl hfd hi1,
        li2c_write_addressed (withClose bus c) d addr wb wlen _ hw rfl hfd hi1]
      rfl

theorem li2c_read_withClose_ret (bus : Bus) (c : Int → Int) (devnode : Option String)
    (addr : Nat) (r : Option (List Nat)) (rlen : Nat) :
    (li2c_read (withClose bus c) devnode addr r rlen).ret =
      (li2c_read bus devnode addr r rlen).ret := by
  cases devnode with
  | none => simp [li2c_read]
  | some d =>
    cases r with
    | none => simp [li2c_read]
    | some rb =>
      by_cases hr : rlen = 0
      · simp [li2c_read, hr]
      by_cases ho : bus.sys_open d < 0
      · rw [li2c_read_open_failed bus d addr rb rlen hr ho,
          li2c_read_open_failed (withClose bus c) d addr rb rlen hr ho]
      have hfd : 0 ≤ bus.sys_open d := not_lt.mp ho
      by_cases hi : bus.sys_ioctl (bus.sys_open d) addr < 0
      · rw [li2c_read_unaddressed bus d addr rb rlen _ hr rfl hfd hi,
          li2c_read_unaddressed (withClose bus c) d addr rb rlen _ hr rfl hfd hi]
      have hi1 : 0 ≤ bus.sys_ioctl (bus.sys_open d) addr := not_lt.mp hi
      rw [li2c_read_addressed bus d addr rb rlen _ hr rfl hfd hi1,
        li2c_read_addressed (withClose bus c) d addr rb rlen _ hr rfl hfd hi1]
      rfl

theorem li2c_writeread_withClose_ret (bus : Bus) (c : Int → Int) (devnode : Option String)
    (addr : Nat) (w : Option (List Nat)) (wlen : Nat) (r : Option (List Nat)) (rlen : Nat)
    (stop : Nat) :
    (li2c_writeread (withClose bus c) devnode addr w wlen r rlen stop).ret =
      (li2c_writeread bus devnode addr w wlen r rlen stop).ret := by
  cases devnode with
  | none => simp [li2c_writeread]
  | some d =>
    cases w with
    | none => simp [li2c_writeread]
    | some wb =>
      cases r with
      | none => simp [li2c_writeread]
      | some rb =>
        by_cases hw : wlen = 0
        · simp [li2c_writeread, hw]
        by_cases hr : rlen = 0
        · simp [li2c_writeread, hr]
        by_cases hs : stop = 0
        · simp [li2c_writeread, hs]
        by_cases ho : bus.sys_open d < 0
        · rw [li2c_writeread_open_failed bus d addr wb wlen rb rlen stop hw hr hs ho,
            li2c_writeread_open_failed (withClose bus c) d addr wb wlen rb rlen stop hw hr hs ho]
        have hfd : 0 ≤ bus.sys_open d := not_lt.mp ho
        by_cases hi : bus.sys_ioctl (bus.sys_open d) addr < 0
        · rw [li2c_writeread_unaddressed bus d addr wb wlen rb rlen stop _ hw hr hs rfl hfd hi,
            li2c_writeread_unaddressed (withClose bus c) d addr wb wlen rb rlen stop _ hw hr hs
              rfl hfd hi]
        have hi1 : 0 ≤ bus.sys_ioctl (bus.sys_open d) addr := not_lt.mp hi
        rw [li2c_writeread_addressed bus d addr wb wlen rb rlen stop _ hw hr hs rfl hfd hi1,
          li2c_writeread_addressed (withClose bus c) d addr wb wlen rb rlen stop _ hw hr hs
            rfl hfd hi1]
        rfl

/-- C9, as stated, fails in its last sentence: the raw write returns
`n = 2^31 ≥ 1`, the close fails, and `li2c_write` returns -1, not `n`. -/
theorem li2c_write_close_failed_large_count :
    (writeBus 2147483648 (-1)).sys_write 3 ((List.replicate 2147483648 0).take 2147483648)
      2147483648 = 2147483648 ∧
    (writeBus 2147483648 (-1)).sys_close 3 < 0 ∧
    (li2c_write (writeBus 2147483648 (-1)) (some "/dev/i2c-0") 80
      (some (List.replicate 2147483648 0)) 2147483648).ret = -1 := by
  refine ⟨rfl, by decide, ?_⟩
  rw [li2c_write_addressed (writeBus 2147483648 (-1)) "/dev/i2c-0" 80 _ 2147483648 3
    (by decide) rfl (by decide) (by decide)]
  decide

/-- C9 amended: for `li2c_write`, `li2c_read` and `li2c_writeread`, on every
bus and for all arguments, the returned value is the same whatever the close
primitive returns (`c1` and `c2` are two arbitrary close primitives).  In
particular, when the raw write of `li2c_write` returns `n` with
`1 ≤ n ≤ INT_MAX` and the close fails, `li2c_write` returns `n`. -/
theorem close_outcome_ignored (bus : Bus) (c1 c2 : Int → Int) (devnode : Option String)
    (addr : Nat) (w : Option (List Nat)) (wlen : Nat) (r : Option (List Nat)) (rlen : Nat)
    (stop : Nat) :
    (li2c_write (withClose bus c1) devnode addr w wlen).ret =
      (li2c_write (withClose bus c2) devnode addr w wlen).ret ∧
    (li2c_read (withClose bus c1) devnode addr r rlen).ret =
      (li2c_read (withClose bus c2) devnode addr r rlen).ret ∧
    (li2c_writeread (withClose bus c1) devnode addr w wlen r rlen stop).ret =
      (li2c_writeread (withClose bus c2) devnode addr w wlen r rlen stop).ret ∧
    (∀ (d : String) (wb : List Nat) (fd n : Int), 1 ≤ wlen →
      bus.sys_open d = fd → 0 ≤ fd → 0 ≤ bus.sys_ioctl fd addr →
      bus.sys_write fd (wb.take wlen) wlen = n → 1 ≤ n → n ≤ INT_MAX →
      bus.sys_close fd < 0 →
      (li2c_write bus (some d) addr (some wb) wlen).ret = n) := by
  refine ⟨?_, ?_, ?_, ?_⟩
  · rw [li2c_write_withClose_ret, li2c_write_withClose_ret]
  · rw [li2c_read_withClose_ret, li2c_read_withClose_ret]
  · rw [li2c_writeread_withClose_ret, li2c_writeread_withClose_ret]
  · intro d wb fd n hw hopen hfd hioctl hn h1 h2 _
    unfold INT_MAX at h2
    rw [li2c_write_addressed bus d addr wb wlen fd (by omega) hopen hfd hioctl, hn,
      toInt32_of_range n (by omega) h2]
    dsimp only
    rw [if_neg (by omega)]

/-- Witness of C9 amended: the raw write returns 2, the close returns -1, and
`li2c_write` returns 2. -/
theorem close_outcome_ignored_witness :
    (writeBus 2 (-1)).sys_close 3 < 0 ∧
    (li2c_write (writeBus 2 (-1)) (some "/dev/i2c-0") 80 (some [0, 16]) 2).ret = 2 :=
  ⟨by decide,
    (close_outcome_ignored (writeBus 2 (-1)) (fun _ => 0) (fun _ => -1) (some "/dev/i2c-0") 80
      (some [0, 16]) 2 none 0 1).2.2.2 "/dev/i2c-0" [0, 16] 3 2 (by decide) rfl (by decide)
      (by decide) rfl (by decide) (by decide) (by decide)⟩

/-! ## Addressing -/

/-- C8: in every valid call of `li2c_write`, `li2c_read` or `li2c_writeread`
whose open succeeded with descriptor `fd`, the trace starts with the open
followed by the addressing call on `fd` with the caller's `addr`, this is the
only addressing call of the trace (so it precedes every raw write and read),
and there is no raw write or read when the addressing fails.  For
`li2c_write("/dev/i2c-0", 0x50, [0x00, 0x10], 2)` with the raw write returning
2 the call returns 2 and the trace is open, setTarget(0x50), write, close. -/
theorem addressing_once (bus : Bus) (d : String) (addr : Nat) (wb : List Nat) (wlen : Nat)
    (rb : List Nat) (rlen : Nat) (stop : Nat) (fd : Int)
    (hw : 1 ≤ wlen) (hr : 1 ≤ rlen) (hs : stop ≠ 0)
    (hopen : bus.sys_open d = fd) (hfd : 0 ≤ fd) :
    (setTargets (li2c_write bus (some d) addr (some wb) wlen).trace = [Call.setTarget fd addr] ∧
      (∃ rest, (li2c_write bus (some d) addr (some wb) wlen).trace =
        Call.open d :: Call.setTarget fd addr :: rest) ∧
      (bus.sys_ioctl fd addr < 0 →
        transfers (li2c_write bus (some d) addr (some wb) wlen).trace = 0)) ∧
    (setTargets (li2c_read bus (some d) addr (some rb) rlen).trace = [Call.setTarget fd addr] ∧
      (∃ rest, (li2c_read bus (some d) addr (some rb) rlen).trace =
        Call.open d :: Call.setTarget fd addr :: rest) ∧
      (bus.sys_ioctl fd addr < 0 →
        transfers (li2c_read bus (some d) addr (some rb) rlen).trace = 0)) ∧
    (setTargets (li2c_writeread bus (some d) addr (some wb) wlen (some rb) rlen stop).trace =
        [Call.setTarget fd addr] ∧
      (∃ rest, (li2c_writeread bus (some d) addr (some wb) wlen (some rb) rlen stop).trace =
        Call.open d :: Call.setTarget fd addr :: rest) ∧
      (bus.sys_ioctl fd addr < 0 →
        transfers (li2c_writeread bus (some d) addr (some wb) wlen (some rb) rlen stop).trace
          = 0)) ∧
    (∀ (b : Bus) (h : Int), b.sys_open "/dev/i2c-0" = h → 0 ≤ h → 0 ≤ b.sys_ioctl h 80 →
      b.sys_write h [0, 16] 2 = 2 →
      li2c_write b (some "/dev/i2c-0") 80 (some [0, 16]) 2 =
        ⟨2, [Call.open "/dev/i2c-0", Call.setTarget h 80, Call.write h [0, 16] 2, Call.close h],
          none⟩) := by
  have hw0 : wlen ≠ 0 := by omega
  have hr0 : rlen ≠ 0 := by omega
  refine ⟨?_, ?_, ?_, ?_⟩
  · by_cases hi : bus.sys_ioctl fd addr < 0
    · rw [li2c_write_unaddressed bus d addr wb wlen fd hw0 hopen hfd hi]
      simp [setTargets, transfers, Call.isSetTarget, Call.isWrite, Call.isRead]
    · rw [li2c_write_addressed bus d addr wb wlen fd hw0 hopen hfd (not_lt.mp hi)]
      simp [setTargets, Call.isSetTarget, hi]
  · by_cases hi : bus.sys_ioctl fd addr < 0
    · rw [li2c_read_unaddressed bus d addr rb rlen fd hr0 hopen hfd hi]
      simp [setTargets, transfers, Call.isSetTarget, Call.isWrite, Call.isRead]
    · rw [li2c_read_addressed bus d addr rb rlen fd hr0 hopen hfd (not_lt.mp hi)]
      simp [setTargets, Call.isSetTarget, hi]
  · by_cases hi : bus.sys_ioctl fd addr < 0
    · rw [li2c_writeread_unaddressed bus d addr wb wlen rb rlen stop fd hw0 hr0 hs hopen hfd hi]
      simp [setTargets, transfers, Call.isSetTarget, Call.isWrite, Call.isRead]
    · rw [li2c_writeread_addressed bus d addr wb wlen rb rlen stop fd hw0 hr0 hs hopen hfd
        (not_lt.mp hi)]
      split_ifs <;> simp [setTargets, Call.isSetTarget, hi]
  · intro b h hopen1 hfd1 hioctl1 hwrite
    rw [li2c_write_addressed b "/dev/i2c-0" 80 [0, 16] 2 h (by decide) hopen1 hfd1 hioctl1]
    have h2 : toInt32 2 = 2 := by decide
    simp only [List.take, hwrite, h2]
    rw [if_neg (by decide)]

/-- Witness of C8 with `addr = 0x7F`: `li2c_read` on descriptor 3 addresses 0x7F once. -/
theorem addressing_once_witness :
    setTargets (li2c_read (withClose (okBus []) (fun _ => 0)) (some "/dev/i2c-0") 127
      (some [0]) 1).trace = [Call.setTarget 3 127] ∧
    (li2c_write (writeBus 2 0) (some "/dev/i2c-0") 80 (some [0, 16]) 2).ret = 2 :=
  ⟨(addressing_once (withClose (okBus []) (fun _ => 0)) "/dev/i2c-0" 127 [0] 1 [0] 1 1 3
      (by decide) (by decide) (by decide) rfl (by decide)).2.1.1,
   by decide⟩

end LibI2C
